import Mathlib

/-!
Verification of the Blender software triangle rasterizer
(`src/unnamed/part_000`, namespace `blender::imbuf::rasterizer`).

The C++ code is shallowly embedded: `float` is modelled as `ℚ`
(the algorithm only uses field arithmetic and comparisons),
`uint32_t`/`int32_t` casts are made explicit, `std::optional` becomes
`Option`, the statistics collector becomes an explicit record threaded
through each operation, and the `ImBuf` destination buffer becomes a
record with a flat `ℕ → ℚ` float store.

The headers `intern/rasterizer_clamping.hh` (class
`CenterPixelClampingMethod`) and `intern/rasterizer_stats.hh` are not
among the provided sources; the clamping policy is modelled from the
spec (see `column_for` below) and the statistics collector from the
spec's list of six monotone counters.
-/

namespace BlenderRaster

/-- A 4-component pixel value, as produced by the fragment shader
(`FragmentOutputType`; `copy_v4_v4` copies exactly these 4 floats). -/
structure Float4 where
  r : ℚ
  g : ℚ
  b : ℚ
  a : ℚ
deriving DecidableEq

/-- Component access `fragment_out[k]` for `k < 4`. -/
def f4get (v : Float4) (k : ℕ) : ℚ :=
  if k = 0 then v.r else if k = 1 then v.g else if k = 2 then v.b else v.a

/-- `VertexOutInterface<Inner>` (src/unnamed/part_000 lines 95-140), with the
`Inner` payload instantiated at a scalar float (the spec's own example
instantiation), floats modelled as `ℚ`.  `coord` is the 2D position split
into `coordX`/`coordY`. -/
structure VertexOut where
  coordX : ℚ
  coordY : ℚ
  data : ℚ
deriving DecidableEq

/-- `VertexOutInterface::operator+=` (lines 103-108): componentwise add. -/
def vo_add (a b : VertexOut) : VertexOut :=
  ⟨a.coordX + b.coordX, a.coordY + b.coordY, a.data + b.data⟩

/-- `VertexOutInterface::operator-` (lines 117-123): componentwise subtract. -/
def vo_sub (a b : VertexOut) : VertexOut :=
  ⟨a.coordX - b.coordX, a.coordY - b.coordY, a.data - b.data⟩

/-- `VertexOutInterface::operator/` (lines 125-131): componentwise divide by
the scalar. -/
def vo_div (a : VertexOut) (d : ℚ) : VertexOut :=
  ⟨a.coordX / d, a.coordY / d, a.data / d⟩

/-- `VertexOutInterface::operator*` (lines 133-139).  The C++ body builds a
local `result` whose fields are the scaled `coord * multiplier` and
`data * multiplier`, but the `return` statement returns `*this` (by value),
so the scaled `result` is discarded and the receiver is returned
unchanged.  The embedding reproduces this faithfully. -/
def vo_mul (a : VertexOut) (m : ℚ) : VertexOut :=
  let _result : VertexOut := ⟨a.coordX * m, a.coordY * m, a.data * m⟩
  a

/-- Modelled from the spec: the scalar multiplication the interpolation
record is required to provide ("Must behave as a vector space under
{+=, −, *scalar, /scalar}"), i.e. both fields scaled componentwise.
Used only to compare `vo_mul` against the specified behaviour. -/
def vo_mul_spec (a : VertexOut) (m : ℚ) : VertexOut :=
  ⟨a.coordX * m, a.coordY * m, a.data * m⟩

/-- Modelled from the spec: the clamping policy `CenterPixelClampingMethod`
(header `intern/rasterizer_clamping.hh`, not among the provided sources).
Per the spec it is a stateless, deterministic, monotonic mapping from a
continuous coordinate to a discrete column index, with the sampling anchor
of index `i` at the pixel center `i + 1/2`; the index for `x` is the first
column whose anchor lies at or after `x`. -/
def column_for (x : ℚ) : ℤ :=
  Int.ceil (x - 1/2)

/-- Modelled from the spec: row analogue of `column_for`. -/
def scanline_for (y : ℚ) : ℤ :=
  Int.ceil (y - 1/2)

/-- Modelled from the spec: signed distance from `x` up to the sampling
anchor (center) of `column_for x`. -/
def distance_to_column_anchor (x : ℚ) : ℚ :=
  ((column_for x : ℚ) + 1/2) - x

/-- Modelled from the spec: row analogue of `distance_to_column_anchor`. -/
def distance_to_scanline_anchor (y : ℚ) : ℚ :=
  ((scanline_for y : ℚ) + 1/2) - y

/-- Modelled from the spec: the statistics collector
(`intern/rasterizer_stats.hh`, not among the provided sources) is six
monotone counters; the `increase_*` calls in the rasterizer each bump one
counter by 1. -/
structure Stats where
  triangles : ℕ
  discarded_triangles : ℕ
  rasterlines : ℕ
  discarded_rasterlines : ℕ
  clamped_rasterlines : ℕ
  flushes : ℕ
deriving DecidableEq

/-- The all-zero counters of a freshly constructed collector. -/
def stats0 : Stats :=
  ⟨0, 0, 0, 0, 0, 0⟩

/-- `Rasterline<FragmentInput>` (lines 169-191) with the fragment input
instantiated at a scalar float.  `y`, `start_x`, `end_x` are `uint32_t`,
modelled as `ℕ`. -/
structure Rasterline where
  y : ℕ
  start_x : ℕ
  end_x : ℕ
  start_data : ℚ
  delta_step : ℚ
deriving DecidableEq

/-- The destination `ImBuf`: dimensions `x` (width) and `y` (height), the
configured `channels` count, and the flat `rect_float` storage. -/
structure ImBuf where
  x : ℕ
  y : ℕ
  channels : ℕ
  rect_float : ℕ → ℚ

/-- Conversion of a C++ `int` value to `uint32_t` (wraps modulo `2^32`). -/
def toU32 (i : ℤ) : ℕ :=
  (i % (2:ℤ)^32).toNat

/-- `Rasterizer::clamped_rasterline` (lines 481-532).  Takes the buffer
width (`image_buffer_->x`) and the current statistics; returns the optional
rasterline together with the updated statistics.  The `BLI_assert` on `y`
is a debug-build assertion and compiles to nothing in release builds, so it
is not modelled as a precondition here. -/
def clamped_rasterline (width : ℕ) (stats : Stats) (y : ℤ)
    (start_x end_x : ℚ) (start_data end_data : ℚ) :
    Option Rasterline × Stats :=
  let stats := { stats with rasterlines := stats.rasterlines + 1 }
  if start_x ≥ end_x then
    (none, { stats with discarded_rasterlines := stats.discarded_rasterlines + 1 })
  else if end_x < 0 then
    (none, { stats with discarded_rasterlines := stats.discarded_rasterlines + 1 })
  else if start_x ≥ (width : ℚ) then
    (none, { stats with discarded_rasterlines := stats.discarded_rasterlines + 1 })
  else
    let add_x : ℚ := (end_data - start_data) / (end_x - start_x)
    let start_xi : ℤ := column_for start_x
    let delta_to_anchor : ℚ :=
      if start_xi < 0 then distance_to_column_anchor start_x + (-start_xi : ℤ)
      else distance_to_column_anchor start_x
    let start_xi2 : ℤ := if start_xi < 0 then 0 else start_xi
    let start_data2 : ℚ := start_data + add_x * delta_to_anchor
    let end_xi : ℕ := toU32 (column_for end_x)
    let end_xi2 : ℕ := if end_xi > width then width else end_xi
    let stats :=
      if start_xi < 0 ∨ end_xi > width then
        { stats with clamped_rasterlines := stats.clamped_rasterlines + 1 }
      else stats
    (some ⟨toU32 y, toU32 start_xi2, end_xi2, start_data2, add_x⟩, stats)

/-- The mutable per-instance state of a `Rasterizer`: the pending
`rasterlines_` buffer (a `Rasterlines` wrapper around `Vector`, lines
193-225, modelled as the list of pending entries), the statistics, and the
destination image buffer.  The spec models the freshly constructed buffer
as empty with capacity `RasterlinesSize` (the `Vector` internals live in
`BLI_vector.hh`, which is not among the provided sources). -/
structure RState where
  lines : List Rasterline
  stats : Stats
  buf : ImBuf

/-- Writes the 4 channels of `v` at `base .. base + 3` of the flat store
(`copy_v4_v4(pixel_ptr, &fragment_out[0])`). -/
def write4 (rect : ℕ → ℚ) (base : ℕ) (v : Float4) : ℕ → ℚ :=
  fun i =>
    if i = base then v.r
    else if i = base + 1 then v.g
    else if i = base + 2 then v.b
    else if i = base + 3 then v.a
    else rect i

/-- The loop of `Rasterizer::render_rasterline` (lines 536-546), by
recursion on the remaining iteration count `end_x - x`: at column `x` the
fragment shader output for the current `data` is written at float offset
`pixel_index * 4`, where `uint32_t pixel_index = rasterline.y *
image_buffer_->x + x` (line 538).  Both the pixel index and the `* 4`
offset are `uint32_t` computations and wrap modulo `2^32`, faithfully to
the source (the chained wraps of the product and the sum coincide with a
single wrap of `row * width + x`).  `data` then advances by
`delta_step`. -/
def render_loop (frag : ℚ → Float4) (width row : ℕ) (delta : ℚ) :
    ℕ → ℕ → ℚ → (ℕ → ℚ) → (ℕ → ℚ)
  | 0, _, _, rect => rect
  | n + 1, x, data, rect =>
      let pixel_index := (row * width + x) % 2 ^ 32
      render_loop frag width row delta n (x + 1) (data + delta)
        (write4 rect ((pixel_index * 4) % 2 ^ 32) (frag data))

/-- `Rasterizer::render_rasterline` (lines 534-547): renders one rasterline
into the destination buffer.  Note the float offset is always
`pixel_index * 4`, with the literal 4 independent of `buf.channels`, and
is computed in `uint32_t` arithmetic (see `render_loop`). -/
def render_rasterline (frag : ℚ → Float4) (buf : ImBuf) (rl : Rasterline) :
    ImBuf :=
  { buf with
    rect_float :=
      render_loop frag buf.x rl.y rl.delta_step (rl.end_x - rl.start_x)
        rl.start_x rl.start_data buf.rect_float }

/-- `Rasterizer::flush` (lines 316-327): no-op when the buffer is empty;
otherwise bumps the flush counter, renders every pending rasterline in
insertion order and clears the buffer. -/
def flush (frag : ℚ → Float4) (s : RState) : RState :=
  if s.lines.isEmpty then s
  else
    { lines := [],
      stats := { s.stats with flushes := s.stats.flushes + 1 },
      buf := s.lines.foldl (render_rasterline frag) s.buf }

/-- `Rasterizer::append` (lines 549-555): pushes onto the buffer
(`Rasterlines::append`, line 201), then flushes when
`Rasterlines::is_full` (`size() == BufferSize`, line 218) holds. -/
def appendLine (frag : ℚ → Float4) (cap : ℕ) (rl : Rasterline)
    (s : RState) : RState :=
  let s' := { s with lines := s.lines ++ [rl] }
  if s'.lines.length = cap then flush frag s' else s'

/-- `Rasterizer::calc_vertex_output_data` (lines 426-434). -/
def calc_vertex_output_data (vfrom vto : VertexOut) : VertexOut :=
  let num_rasterlines := vto.coordY - vfrom.coordY
  if num_rasterlines = 0 then vo_sub vto vfrom
  else vo_div (vo_sub vto vfrom) num_rasterlines

/-- `Rasterizer::order_triangle_vertices` (lines 436-479): index 0 gets the
first strict minimum of the y-coordinates, index 2 the first strict
maximum; when min and max coincide the original input order is returned;
otherwise index 1 is the first vertex that is neither. -/
def order_triangle_vertices (v0 v1 v2 : VertexOut) :
    VertexOut × VertexOut × VertexOut :=
  let get := fun (i : ℕ) => if i = 0 then v0 else if i = 1 then v1 else v2
  let i0a : ℕ := if (get 1).coordY < (get 0).coordY then 1 else 0
  let i0 : ℕ := if (get 2).coordY < (get i0a).coordY then 2 else i0a
  let i2a : ℕ := if (get 1).coordY > (get 0).coordY then 1 else 0
  let i2 : ℕ := if (get 2).coordY > (get i2a).coordY then 2 else i2a
  if (get i0).coordY = (get i2).coordY then (v0, v1, v2)
  else
    let i1 : ℕ :=
      if 0 ≠ i0 ∧ 0 ≠ i2 then 0 else if 1 ≠ i0 ∧ 1 ≠ i2 then 1 else 2
    (get i0, get i1, get i2)

/-- The shared body of both scanline loops (lines 380-390 and 413-423):
when the row `v` is inside `[0, buf.y)`, build a clamped rasterline from
the current left/right edge positions and append it when one is produced;
in every iteration both edges then advance by their per-scanline
increments. -/
def scanStep (frag : ℚ → Float4) (cap : ℕ) (ladd radd : VertexOut)
    (st : VertexOut × VertexOut × RState) (v : ℤ) :
    VertexOut × VertexOut × RState :=
  let left := st.1
  let right := st.2.1
  let s := st.2.2
  let s :=
    if 0 ≤ v ∧ v < (s.buf.y : ℤ) then
      let res := clamped_rasterline s.buf.x s.stats v
        left.coordX right.coordX left.data right.data
      let s := { s with stats := res.2 }
      match res.1 with
      | some rl => appendLine frag cap rl s
      | none => s
    else s
  (vo_add left ladd, vo_add right radd, s)

/-- A scanline loop: fold of `scanStep` over the processed row indices. -/
def scanLoop (frag : ℚ → Float4) (cap : ℕ) (ladd radd : VertexOut)
    (rows : List ℤ) (st : VertexOut × VertexOut × RState) :
    VertexOut × VertexOut × RState :=
  rows.foldl (scanStep frag cap ladd radd) st

/-- The list of integers `a, a+1, ..., b-1` (empty when `b ≤ a`): the row
indices visited by a C++ loop `for (; v < b; v++)` starting at `v = a`. -/
def intRange (a b : ℤ) : List ℤ :=
  (List.range (b - a).toNat).map (fun k : ℕ => a + (k : ℤ))

/-- The rows the first scanline loop processes (line 380:
`for (v = min_v; v < mid_v; v++)`). -/
def phase1Rows (s0 s1 : VertexOut) : List ℤ :=
  intRange (scanline_for s0.coordY) (scanline_for s1.coordY)

/-- The rows the second scanline loop processes (line 413:
`for (; v < max_v; v++)` with `max_v = scanline_for(bottom.y) - 1`,
line 346, and `v` continuing from the first loop, so starting at
`max min_v mid_v`). -/
def phase2Rows (s0 s1 s2 : VertexOut) : List ℤ :=
  let min_v := scanline_for s0.coordY
  let mid_v := scanline_for s1.coordY
  let max_v := scanline_for s2.coordY - 1
  intRange (max min_v mid_v) max_v

/-- `Rasterizer::rasterize_triangle` (lines 330-424).  The debug `printf`
is side-effect free on the state and is omitted.  Note that both sub-pixel
anchor corrections use `VertexOutInterface::operator*` (`vo_mul`), hence
add the *unscaled* edge increment, faithfully to the source. -/
def rasterize_triangle (frag : ℚ → Float4) (cap : ℕ)
    (v0 v1 v2 : VertexOut) (s : RState) : RState :=
  let sorted := order_triangle_vertices v0 v1 v2
  let s0 := sorted.1
  let s1 := sorted.2.1
  let s2 := sorted.2.2
  let left := s0
  let right := s0
  let targets :=
    if s1.coordX < s2.coordX then (s1, s2) else (s2, s1)
  let left_add := calc_vertex_output_data left targets.1
  let right_add := calc_vertex_output_data right targets.2
  let adds :=
    if right_add.coordX < left_add.coordX then (right_add, left_add)
    else (left_add, right_add)
  let left_add := adds.1
  let right_add := adds.2
  let dmin := distance_to_scanline_anchor s0.coordY
  let left := vo_add left (vo_mul left_add dmin)
  let right := vo_add right (vo_mul right_add dmin)
  let st1 := scanLoop frag cap left_add right_add (phase1Rows s0 s1)
    (left, right, s)
  let left := st1.1
  let right := st1.2.1
  let s := st1.2.2
  let dmid := distance_to_scanline_anchor s1.coordY
  let distance_to_left := |left.coordX - s1.coordX|
  let distance_to_right := |right.coordX - s1.coordX|
  let handoff :=
    if distance_to_left < distance_to_right then
      let left := s1
      let left_add := calc_vertex_output_data left s2
      (vo_add left (vo_mul left_add dmid), right, left_add, right_add)
    else
      let right := s1
      let right_add := calc_vertex_output_data right s2
      (left, vo_add right (vo_mul right_add dmid), left_add, right_add)
  let st2 := scanLoop frag cap handoff.2.2.1 handoff.2.2.2
    (phase2Rows s0 s1 s2) (handoff.1, handoff.2.1, s)
  st2.2.2

/-- `Rasterizer::draw_triangle` (lines 284-314): bump the triangles-seen
counter, run the vertex shader `vs` on the three inputs, discard (bumping
the discarded-triangles counter) when all three coordinates are on a
single side of the buffer, otherwise scan-convert. -/
def draw_triangle {α : Type} (vs : α → VertexOut) (frag : ℚ → Float4)
    (cap : ℕ) (p1 p2 p3 : α) (s : RState) : RState :=
  let s := { s with stats := { s.stats with triangles := s.stats.triangles + 1 } }
  let o1 := vs p1
  let o2 := vs p2
  let o3 := vs p3
  let w : ℚ := s.buf.x
  let h : ℚ := s.buf.y
  let triangle_not_visible :=
    (o1.coordX < 0 ∧ o2.coordX < 0 ∧ o3.coordX < 0) ∨
    (o1.coordY < 0 ∧ o2.coordY < 0 ∧ o3.coordY < 0) ∨
    (o1.coordX ≥ w ∧ o2.coordX ≥ w ∧ o3.coordX ≥ w) ∨
    (o1.coordY ≥ h ∧ o2.coordY ≥ h ∧ o3.coordY ≥ h)
  if triangle_not_visible then
    { s with stats :=
        { s.stats with discarded_triangles := s.stats.discarded_triangles + 1 } }
  else
    rasterize_triangle frag cap o1 o2 o3 s

/-! ### Concrete instances used by witnesses and counterexamples -/

/-- A pass-through vertex shader (the spec's own minimal example: coordinates
are already in pixel space and the payload is carried unchanged). -/
def idShader : VertexOut → VertexOut :=
  fun v => v

/-- A concrete fragment shader writing the payload into the first three
channels and 1 into the alpha channel. -/
def fragC : ℚ → Float4 :=
  fun d => ⟨d, d, d, 1⟩

/-- A freshly constructed rasterizer state over an 8×8, 4-channel,
all-zero destination buffer. -/
def rstate0 : RState :=
  ⟨[], stats0, ⟨8, 8, 4, fun _ => 0⟩⟩

/-! ### Helper lemmas -/

lemma mem_intRange {a b v : ℤ} : v ∈ intRange a b ↔ a ≤ v ∧ v < b := by
  unfold intRange
  rw [List.mem_map]
  constructor
  · rintro ⟨k, hk, rfl⟩
    rw [List.mem_range] at hk
    omega
  · rintro ⟨h1, h2⟩
    refine ⟨(v - a).toNat, ?_, ?_⟩
    · rw [List.mem_range]
      omega
    · omega

lemma scanline_for_zero : scanline_for 0 = 0 := by
  norm_num [scanline_for, Int.ceil_eq_iff]

lemma scanline_for_two : scanline_for 2 = 2 := by
  norm_num [scanline_for, Int.ceil_eq_iff]

lemma scanline_for_one : scanline_for 1 = 1 := by
  norm_num [scanline_for, Int.ceil_eq_iff]

lemma scanline_for_three : scanline_for 3 = 3 := by
  norm_num [scanline_for, Int.ceil_eq_iff]

lemma column_for_two : column_for 2 = 2 := by
  norm_num [column_for, Int.ceil_eq_iff]

lemma column_for_21_10 : column_for (21/10) = 2 := by
  norm_num [column_for, Int.ceil_eq_iff]

lemma column_for_neg_five : column_for (-5) = -5 := by
  norm_num [column_for, Int.ceil_eq_iff]

lemma column_for_ten : column_for 10 = 10 := by
  norm_num [column_for, Int.ceil_eq_iff]

lemma column_for_half : column_for (1/2) = 0 := by
  norm_num [column_for, Int.ceil_eq_iff]

lemma column_for_five : column_for 5 = 5 := by
  norm_num [column_for, Int.ceil_eq_iff]

lemma column_for_zero : column_for 0 = 0 := by
  norm_num [column_for, Int.ceil_eq_iff]

/-- `column_for` applied to an integral width: `⌈w - 1/2⌉ = w`. -/
lemma column_for_natCast (w : ℕ) : column_for (w : ℚ) = w := by
  have : (w : ℚ) - 1/2 = (-(1/2) : ℚ) + (w : ℤ) := by push_cast; ring
  rw [column_for, this, Int.ceil_add_int]
  norm_num [Int.ceil_eq_iff]

/-- `column_for` is monotone (the clamping policy's contract). -/
lemma column_for_mono {a b : ℚ} (h : a ≤ b) : column_for a ≤ column_for b :=
  Int.ceil_mono (by linarith)

/-! ### C2: the interpolation record's scalar multiplication -/

/-- C2 (counter-evidence for the code bug): `VertexOutInterface::operator*`
returns the receiver unchanged instead of the scaled record.  At the
concrete record `{coord = (1, 2), data = 3}` and scalar `2`, the code
yields `{(1, 2), 3}` whereas the specified vector-space scalar
multiplication (`vo_mul_spec`) yields `{(2, 4), 6}`. -/
theorem vo_mul_code_bug :
    vo_mul ⟨1, 2, 3⟩ 2 = ⟨1, 2, 3⟩ ∧
    vo_mul ⟨1, 2, 3⟩ 2 ≠ vo_mul_spec ⟨1, 2, 3⟩ 2 := by
  refine ⟨rfl, ?_⟩
  norm_num [vo_mul, vo_mul_spec]

/-! ### C6: the discard conditions of `clamped_rasterline` -/

/-- C6: `clamped_rasterline` returns no rasterline exactly when
`start_x ≥ end_x`, or `end_x < 0`, or `start_x ≥ buffer_width`; the
discarded-rasterline counter is incremented by 1 exactly in those cases
and left unchanged otherwise. -/
theorem clamped_rasterline_discard_iff
    (width : ℕ) (stats : Stats) (y : ℤ) (sx ex sd ed : ℚ) :
    (((clamped_rasterline width stats y sx ex sd ed).1 = none) ↔
      (sx ≥ ex ∨ ex < 0 ∨ sx ≥ (width : ℚ))) ∧
    ((clamped_rasterline width stats y sx ex sd ed).2.discarded_rasterlines =
      if sx ≥ ex ∨ ex < 0 ∨ sx ≥ (width : ℚ)
      then stats.discarded_rasterlines + 1
      else stats.discarded_rasterlines) := by
  unfold clamped_rasterline
  by_cases h1 : sx ≥ ex
  · simp [h1]
  by_cases h2 : ex < 0
  · simp [h1, h2]
  by_cases h3 : sx ≥ (width : ℚ)
  · simp [h1, h2, h3]
  · refine ⟨by simp [h1, h2, h3], ?_⟩
    simp only [h1, h2, h3, if_neg, or_self, if_false]
    split_ifs <;> rfl

/-! ### C7: the clamped-rasterline counter -/

/-- C7: one call to `clamped_rasterline` increments the clamped-rasterline
counter by at most 1; in particular the spec's double-clamp example
(`start_x = -5`, `end_x = 10` into a buffer of width 8) produces a
rasterline and increments it by exactly 1, not 2. -/
theorem clamped_rasterline_clamped_at_most_once
    (width : ℕ) (stats : Stats) (y : ℤ) (sx ex sd ed : ℚ) :
    ((clamped_rasterline width stats y sx ex sd ed).2.clamped_rasterlines ≤
      stats.clamped_rasterlines + 1) ∧
    ((clamped_rasterline 8 stats y (-5) 10 sd ed).1.isSome = true ∧
     (clamped_rasterline 8 stats y (-5) 10 sd ed).2.clamped_rasterlines =
      stats.clamped_rasterlines + 1) := by
  constructor
  · simp only [clamped_rasterline]
    split_ifs <;> simp
  · constructor <;>
      norm_num [clamped_rasterline, column_for_neg_five, column_for_ten,
        distance_to_column_anchor, toU32]

/-! ### C4: the range of the second scanline loop -/

/-- C4 (counterexample): for the triangle with vertex-stage outputs
`(0,0) (1,1) (2,3)` — which `order_triangle_vertices` keeps in this order,
with `top.y = 0 < 3 = bottom.y` — `bottom.scanline − 1 = 2`, yet the
second scanline loop processes only row `1`: row `bottom.scanline − 1` is
*not* processed, refuting "the last row processed in phase 2 is
`bottom.scanline − 1`". -/
theorem phase2_last_row_cex :
    order_triangle_vertices ⟨0, 0, 0⟩ ⟨1, 1, 0⟩ ⟨2, 3, 0⟩ =
      (⟨0, 0, 0⟩, ⟨1, 1, 0⟩, ⟨2, 3, 0⟩) ∧
    (⟨0, 0, 0⟩ : VertexOut).coordY < (⟨2, 3, 0⟩ : VertexOut).coordY ∧
    scanline_for (⟨2, 3, 0⟩ : VertexOut).coordY - 1 = 2 ∧
    phase2Rows ⟨0, 0, 0⟩ ⟨1, 1, 0⟩ ⟨2, 3, 0⟩ = [1] ∧
    (2 : ℤ) ∉ phase2Rows ⟨0, 0, 0⟩ ⟨1, 1, 0⟩ ⟨2, 3, 0⟩ := by
  norm_num [order_triangle_vertices, phase2Rows, intRange,
    scanline_for_zero, scanline_for_one, scanline_for_three,
    List.range_succ, List.range_zero]

/-- C4 (amended): for sorted vertices with `top.y ≤ mid.y`, the second
scanline loop attempts the per-row rasterline construction and edge
advancement exactly for the rows from `mid.scanline` up to and including
`bottom.scanline − 2` (that is, strictly below `max_v =
bottom.scanline − 1`). -/
theorem phase2_rows_amended (s0 s1 s2 : VertexOut)
    (h01 : s0.coordY ≤ s1.coordY) (v : ℤ) :
    v ∈ phase2Rows s0 s1 s2 ↔
      scanline_for s1.coordY ≤ v ∧ v ≤ scanline_for s2.coordY - 2 := by
  have hmono : scanline_for s0.coordY ≤ scanline_for s1.coordY :=
    Int.ceil_mono (by linarith)
  simp only [phase2Rows]
  rw [mem_intRange, max_eq_right hmono]
  omega

/-- Witness for `phase2_rows_amended` at the counterexample triangle. -/
theorem phase2_rows_amended_witness :
    (1 : ℤ) ∈ phase2Rows ⟨0, 0, 0⟩ ⟨1, 1, 0⟩ ⟨2, 3, 0⟩ ↔
      scanline_for (⟨1, 1, 0⟩ : VertexOut).coordY ≤ 1 ∧
      (1 : ℤ) ≤ scanline_for (⟨2, 3, 0⟩ : VertexOut).coordY - 2 :=
  phase2_rows_amended ⟨0, 0, 0⟩ ⟨1, 1, 0⟩ ⟨2, 3, 0⟩ (by norm_num) 1

/-! ### C1: filling the rasterline buffer flushes exactly once -/

/-- A sequence of `Rasterizer::append` calls, one per list element. -/
def appendAll (frag : ℚ → Float4) (cap : ℕ) (rls : List Rasterline)
    (s : RState) : RState :=
  rls.foldl (fun st rl => appendLine frag cap rl st) s

lemma appendLine_full (frag : ℚ → Float4) (cap : ℕ) (rl : Rasterline)
    (s : RState) (h : s.lines.length + 1 = cap) :
    appendLine frag cap rl s =
      ⟨[], { s.stats with flushes := s.stats.flushes + 1 },
        (s.lines ++ [rl]).foldl (render_rasterline frag) s.buf⟩ := by
  unfold appendLine
  rw [if_pos (by simp [h])]
  unfold flush
  rw [if_neg (by simp)]

lemma appendLine_not_full (frag : ℚ → Float4) (cap : ℕ) (rl : Rasterline)
    (s : RState) (h : s.lines.length + 1 ≠ cap) :
    appendLine frag cap rl s = { s with lines := s.lines ++ [rl] } := by
  unfold appendLine
  rw [if_neg (by simp [h])]

lemma appendAll_fill (frag : ℚ → Float4) (cap : ℕ) :
    ∀ (rls : List Rasterline) (s : RState), rls ≠ [] →
      s.lines.length + rls.length = cap →
      (appendAll frag cap rls s).lines = [] ∧
      (appendAll frag cap rls s).stats.flushes = s.stats.flushes + 1 := by
  intro rls
  induction rls with
  | nil => simp
  | cons rl rest ih =>
    intro s _ hlen
    rcases List.eq_nil_or_concat' rest with hr | _
    · subst hr
      have h1 : s.lines.length + 1 = cap := by
        simpa using hlen
      simp [appendAll, appendLine_full frag cap rl s h1]
    · have hrest : rest ≠ [] := by
        rintro rfl
        simp_all
      have hlt : s.lines.length + 1 ≠ cap := by
        have : 1 ≤ rest.length := List.length_pos.mpr hrest
        simp only [List.length_cons] at hlen
        omega
      have hstep : appendAll frag cap (rl :: rest) s =
          appendAll frag cap rest { s with lines := s.lines ++ [rl] } := by
        simp [appendAll, appendLine_not_full frag cap rl s hlt]
      rw [hstep]
      have := ih { s with lines := s.lines ++ [rl] } hrest
        (by simp only [List.length_cons] at hlen; simp; omega)
      simpa using this

/-- C1: starting from a state whose rasterline buffer is empty (just
flushed, or newly constructed per the spec), appending exactly `capacity`
rasterlines leaves the buffer empty and increments the flush counter by
exactly 1 — i.e. exactly one automatic flush fires during the sequence. -/
theorem rasterlines_capacity_exactly_one_flush
    (frag : ℚ → Float4) (cap : ℕ) (rls : List Rasterline) (s : RState)
    (hempty : s.lines = []) (hlen : rls.length = cap) (hcap : 1 ≤ cap) :
    (appendAll frag cap rls s).lines = [] ∧
    (appendAll frag cap rls s).stats.flushes = s.stats.flushes + 1 := by
  apply appendAll_fill
  · rintro rfl
    simp at hlen
    omega
  · rw [hempty]
    simp [hlen]

/-- Witness for `rasterlines_capacity_exactly_one_flush`: capacity 2,
two appends from the fresh state. -/
theorem rasterlines_capacity_exactly_one_flush_witness :
    (appendAll fragC 2 [⟨0, 0, 1, 0, 0⟩, ⟨0, 1, 2, 0, 0⟩] rstate0).lines = [] ∧
    (appendAll fragC 2 [⟨0, 0, 1, 0, 0⟩, ⟨0, 1, 2, 0, 0⟩] rstate0).stats.flushes =
      rstate0.stats.flushes + 1 :=
  rasterlines_capacity_exactly_one_flush fragC 2
    [⟨0, 0, 1, 0, 0⟩, ⟨0, 1, 2, 0, 0⟩] rstate0 rfl rfl (by norm_num)

/-! ### C3: the pending buffer never exceeds the capacity -/

/-- One public call on the rasterizer: `draw_triangle` or `flush`. -/
inductive DrawOp (α : Type) where
  | draw (p1 p2 p3 : α)
  | flushCall

/-- Runs one public call. -/
def runOp {α : Type} (vs : α → VertexOut) (frag : ℚ → Float4) (cap : ℕ)
    (s : RState) : DrawOp α → RState
  | .draw p1 p2 p3 => draw_triangle vs frag cap p1 p2 p3 s
  | .flushCall => flush frag s

/-- Runs a sequence of public calls (any observation point between calls
is the result of running some prefix, so quantifying over all call lists
covers every observation point). -/
def runOps {α : Type} (vs : α → VertexOut) (frag : ℚ → Float4) (cap : ℕ)
    (ops : List (DrawOp α)) (s : RState) : RState :=
  ops.foldl (runOp vs frag cap) s

lemma flush_length_lt (frag : ℚ → Float4) {cap : ℕ} (s : RState)
    (h : s.lines.length < cap) : (flush frag s).lines.length < cap := by
  unfold flush
  split_ifs with hs
  · exact h
  · simp only [List.length_nil]
    omega

lemma appendLine_length_lt (frag : ℚ → Float4) {cap : ℕ} (rl : Rasterline)
    (s : RState) (h : s.lines.length < cap) :
    (appendLine frag cap rl s).lines.length < cap := by
  simp only [appendLine]
  split_ifs with hfull
  · unfold flush
    rw [if_neg (by simp)]
    simp only [List.length_nil]
    omega
  · simp only [List.length_append, List.length_cons, List.length_nil] at hfull ⊢
    omega

lemma scanStep_length_lt (frag : ℚ → Float4) {cap : ℕ}
    (ladd radd : VertexOut) (st : VertexOut × VertexOut × RState) (v : ℤ)
    (h : st.2.2.lines.length < cap) :
    (scanStep frag cap ladd radd st v).2.2.lines.length < cap := by
  simp only [scanStep]
  split_ifs with hg
  · rcases hr : (clamped_rasterline st.2.2.buf.x st.2.2.stats v
      st.1.coordX st.2.1.coordX st.1.data st.2.1.data).1 with _ | rl <;>
      simp only [hr]
    · exact h
    · exact appendLine_length_lt frag rl _ h
  · exact h

lemma scanLoop_length_lt (frag : ℚ → Float4) {cap : ℕ}
    (ladd radd : VertexOut) (rows : List ℤ) :
    ∀ (st : VertexOut × VertexOut × RState),
      st.2.2.lines.length < cap →
      (scanLoop frag cap ladd radd rows st).2.2.lines.length < cap := by
  induction rows with
  | nil =>
      intro st h
      exact h
  | cons r rest ih =>
      intro st h
      exact ih _ (scanStep_length_lt frag ladd radd st r h)

lemma rasterize_triangle_length_lt (frag : ℚ → Float4) {cap : ℕ}
    (v0 v1 v2 : VertexOut) (s : RState) (h : s.lines.length < cap) :
    (rasterize_triangle frag cap v0 v1 v2 s).lines.length < cap := by
  unfold rasterize_triangle
  exact scanLoop_length_lt frag _ _ _ _ (scanLoop_length_lt frag _ _ _ _ h)

lemma draw_triangle_length_lt {α : Type} (vs : α → VertexOut)
    (frag : ℚ → Float4) {cap : ℕ} (p1 p2 p3 : α) (s : RState)
    (h : s.lines.length < cap) :
    (draw_triangle vs frag cap p1 p2 p3 s).lines.length < cap := by
  simp only [draw_triangle]
  split_ifs with hv
  · exact h
  · exact rasterize_triangle_length_lt frag _ _ _ _ h

lemma runOps_length_lt {α : Type} (vs : α → VertexOut) (frag : ℚ → Float4)
    {cap : ℕ} (ops : List (DrawOp α)) :
    ∀ (s : RState), s.lines.length < cap →
      (runOps vs frag cap ops s).lines.length < cap := by
  induction ops with
  | nil =>
      intro s h
      exact h
  | cons op rest ih =>
      intro s h
      rcases op with ⟨p1, p2, p3⟩ | _
      · exact ih _ (draw_triangle_length_lt vs frag p1 p2 p3 s h)
      · exact ih _ (flush_length_lt frag s h)

/-- C3: starting from a state with an empty pending buffer (a newly
constructed rasterizer, per the spec) and a positive capacity, after any
sequence of `draw_triangle`/`flush` calls the number of pending
rasterlines is at most the capacity (in fact strictly below it, because
`append` flushes as soon as the buffer reaches the capacity). -/
theorem buffer_never_exceeds_capacity {α : Type} (vs : α → VertexOut)
    (frag : ℚ → Float4) (cap : ℕ) (ops : List (DrawOp α)) (s : RState)
    (hcap : 1 ≤ cap) (hempty : s.lines = []) :
    (runOps vs frag cap ops s).lines.length ≤ cap := by
  refine le_of_lt (runOps_length_lt vs frag ops s ?_)
  rw [hempty]
  simpa using hcap

/-- Witness for `buffer_never_exceeds_capacity`: one explicit `flush` call
on the fresh state with capacity 1. -/
theorem buffer_never_exceeds_capacity_witness :
    (runOps idShader fragC 1 [DrawOp.flushCall] rstate0).lines.length ≤ 1 :=
  buffer_never_exceeds_capacity idShader fragC 1 [DrawOp.flushCall] rstate0
    (le_refl 1) rfl

/-! ### C9: every `draw_triangle` call bumps the triangles-seen counter -/

lemma clamped_rasterline_triangles (width : ℕ) (stats : Stats) (y : ℤ)
    (sx ex sd ed : ℚ) :
    (clamped_rasterline width stats y sx ex sd ed).2.triangles =
      stats.triangles := by
  simp only [clamped_rasterline]
  split_ifs <;> rfl

lemma flush_triangles (frag : ℚ → Float4) (s : RState) :
    (flush frag s).stats.triangles = s.stats.triangles := by
  unfold flush
  split_ifs <;> rfl

lemma appendLine_triangles (frag : ℚ → Float4) (cap : ℕ) (rl : Rasterline)
    (s : RState) :
    (appendLine frag cap rl s).stats.triangles = s.stats.triangles := by
  simp only [appendLine]
  split_ifs with hfull
  · rw [flush_triangles]
  · rfl

lemma scanStep_triangles (frag : ℚ → Float4) (cap : ℕ)
    (ladd radd : VertexOut) (st : VertexOut × VertexOut × RState) (v : ℤ) :
    (scanStep frag cap ladd radd st v).2.2.stats.triangles =
      st.2.2.stats.triangles := by
  simp only [scanStep]
  split_ifs with hg
  · rcases hr : (clamped_rasterline st.2.2.buf.x st.2.2.stats v
      st.1.coordX st.2.1.coordX st.1.data st.2.1.data).1 with _ | rl <;>
      simp only [hr]
    · exact clamped_rasterline_triangles _ _ _ _ _ _ _
    · rw [appendLine_triangles]
      exact clamped_rasterline_triangles _ _ _ _ _ _ _
  · rfl

lemma scanLoop_triangles (frag : ℚ → Float4) (cap : ℕ)
    (ladd radd : VertexOut) (rows : List ℤ) :
    ∀ (st : VertexOut × VertexOut × RState),
      (scanLoop frag cap ladd radd rows st).2.2.stats.triangles =
        st.2.2.stats.triangles := by
  induction rows with
  | nil =>
      intro st
      rfl
  | cons r rest ih =>
      intro st
      rw [scanLoop, List.foldl_cons]
      rw [show List.foldl (scanStep frag cap ladd radd) (scanStep frag cap ladd radd st r) rest =
        scanLoop frag cap ladd radd rest (scanStep frag cap ladd radd st r) from rfl]
      rw [ih, scanStep_triangles]

lemma rasterize_triangle_triangles (frag : ℚ → Float4) (cap : ℕ)
    (v0 v1 v2 : VertexOut) (s : RState) :
    (rasterize_triangle frag cap v0 v1 v2 s).stats.triangles =
      s.stats.triangles := by
  unfold rasterize_triangle
  rw [scanLoop_triangles, scanLoop_triangles]

/-- C9: every call to `draw_triangle` increments the triangles-seen
counter by exactly 1, whether the triangle is discarded by the visibility
test or fully rasterized (no later step of the call touches that
counter). -/
theorem draw_triangle_increments_triangles {α : Type} (vs : α → VertexOut)
    (frag : ℚ → Float4) (cap : ℕ) (p1 p2 p3 : α) (s : RState) :
    (draw_triangle vs frag cap p1 p2 p3 s).stats.triangles =
      s.stats.triangles + 1 := by
  simp only [draw_triangle]
  split_ifs with hv
  · rfl
  · rw [rasterize_triangle_triangles]

/-! ### C8: conservative off-screen triangles are discarded -/

/-- C8: when the three vertex-stage outputs are all left of the buffer,
all below it, all right of it, or all above it (the code's
`triangle_not_visible` test, in source order), `draw_triangle` only bumps
the triangles-seen and discarded-triangles counters: the pending
rasterline buffer, the flush counter and the destination buffer — hence
every pixel — are untouched. -/
theorem draw_triangle_offscreen_discarded {α : Type} (vs : α → VertexOut)
    (frag : ℚ → Float4) (cap : ℕ) (p1 p2 p3 : α) (s : RState)
    (hvis :
      ((vs p1).coordX < 0 ∧ (vs p2).coordX < 0 ∧ (vs p3).coordX < 0) ∨
      ((vs p1).coordY < 0 ∧ (vs p2).coordY < 0 ∧ (vs p3).coordY < 0) ∨
      ((vs p1).coordX ≥ (s.buf.x : ℚ) ∧ (vs p2).coordX ≥ (s.buf.x : ℚ) ∧
        (vs p3).coordX ≥ (s.buf.x : ℚ)) ∨
      ((vs p1).coordY ≥ (s.buf.y : ℚ) ∧ (vs p2).coordY ≥ (s.buf.y : ℚ) ∧
        (vs p3).coordY ≥ (s.buf.y : ℚ))) :
    draw_triangle vs frag cap p1 p2 p3 s =
      { s with stats :=
          { s.stats with
            triangles := s.stats.triangles + 1,
            discarded_triangles := s.stats.discarded_triangles + 1 } } := by
  simp only [draw_triangle]
  split_ifs
  rfl

/-- Witness for `draw_triangle_offscreen_discarded`: a triangle entirely
left of the 8×8 buffer (all x-coordinates negative). -/
theorem draw_triangle_offscreen_discarded_witness :
    draw_triangle idShader fragC 4096 ⟨-1, 0, 0⟩ ⟨-2, 1, 0⟩ ⟨-3, 2, 0⟩
        rstate0 =
      { rstate0 with stats :=
          { rstate0.stats with
            triangles := rstate0.stats.triangles + 1,
            discarded_triangles := rstate0.stats.discarded_triangles + 1 } } :=
  draw_triangle_offscreen_discarded idShader fragC 4096 _ _ _ rstate0
    (Or.inl (by norm_num [idShader]))

/-! ### C10: the pixel footprint of `render_rasterline` -/

lemma write4_ne (rect : ℕ → ℚ) (base : ℕ) (v : Float4) (i : ℕ)
    (h : ∀ k, k < 4 → i ≠ base + k) : write4 rect base v i = rect i := by
  have h0 := h 0 (by norm_num)
  have h1 := h 1 (by norm_num)
  have h2 := h 2 (by norm_num)
  have h3 := h 3 (by norm_num)
  rw [Nat.add_zero] at h0
  simp [write4, h0, h1, h2, h3]

lemma write4_get (rect : ℕ → ℚ) (base : ℕ) (v : Float4) (k : ℕ)
    (hk : k < 4) : write4 rect base v (base + k) = f4get v k := by
  interval_cases k <;> simp [write4, f4get]

lemma u32_mul4_mod (A : ℕ) : ((A % 2 ^ 32) * 4) % 2 ^ 32 = (A * 4) % 2 ^ 32 := by
  conv_rhs => rw [Nat.mul_mod]
  norm_num

lemma u32_mul4_eq (A : ℕ) : (A * 4) % 2 ^ 32 = 4 * (A % 2 ^ 30) := by
  rw [Nat.mul_comm A 4, show (2 : ℕ) ^ 32 = 4 * 2 ^ 30 by norm_num,
    Nat.mul_mod_mul_left]

lemma render_loop_untouched (frag : ℚ → Float4) (w row : ℕ) (δ : ℚ) :
    ∀ (n x : ℕ) (d : ℚ) (rect : ℕ → ℚ) (i : ℕ),
      (∀ c k, x ≤ c → c < x + n → k < 4 →
        i ≠ ((row * w + c) * 4) % 2 ^ 32 + k) →
      render_loop frag w row δ n x d rect i = rect i := by
  intro n
  induction n with
  | zero =>
      intro x d rect i _
      rfl
  | succ n ih =>
      intro x d rect i h
      rw [render_loop]
      rw [ih (x + 1) (d + δ) _ i
        (fun c k hc1 hc2 hk => h c k (by omega) (by omega) hk)]
      refine write4_ne rect _ _ i (fun k hk => ?_)
      rw [u32_mul4_mod]
      exact h x k le_rfl (by omega) hk

lemma render_loop_written (frag : ℚ → Float4) (w row : ℕ) (δ : ℚ) :
    ∀ (n x : ℕ) (d : ℚ) (rect : ℕ → ℚ) (c k : ℕ),
      x ≤ c → c < x + n → k < 4 →
      (∀ c', c < c' → c' < x + n →
        ((row * w + c') * 4) % 2 ^ 32 ≠ ((row * w + c) * 4) % 2 ^ 32) →
      render_loop frag w row δ n x d rect
          (((row * w + c) * 4) % 2 ^ 32 + k) =
        f4get (frag (d + ((c - x : ℕ) : ℚ) * δ)) k := by
  intro n
  induction n with
  | zero =>
      intro x d rect c k hc1 hc2 hk _
      omega
  | succ n ih =>
      intro x d rect c k hc1 hc2 hk hcol
      rw [render_loop]
      by_cases hcx : c = x
      · subst hcx
        rw [render_loop_untouched frag w row δ n (c + 1) (d + δ) _ _
          (fun c' k' hc'1 hc'2 hk' => by
            have hb := hcol c' (by omega) (by omega)
            rw [u32_mul4_eq] at hb ⊢
            rw [u32_mul4_eq (row * w + c')]
            omega)]
        rw [u32_mul4_mod]
        rw [write4_get _ _ _ k hk]
        norm_num
      · have hstep : ((c - (x + 1) : ℕ) : ℚ) + 1 = ((c - x : ℕ) : ℚ) := by
          have hx : c - x = (c - (x + 1)) + 1 := by omega
          rw [hx]
          push_cast
          ring
        rw [ih (x + 1) (d + δ) _ c k (by omega) (by omega) hk
          (fun c' hc'1 hc'2 => hcol c' hc'1 (by omega))]
        have harg : d + δ + ((c - (x + 1) : ℕ) : ℚ) * δ =
            d + ((c - x : ℕ) : ℚ) * δ := by
          rw [← hstep]
          ring
        rw [harg]

/-- C10 (counterexample): rendering the rasterline
`{row 2^30, cols [0, 1), payload 5}` into a buffer of width 4, the
`uint32_t` pixel index `2^30 * 4 + 0` wraps to 0, so the write lands at
float index 0 — an index that is *not* of the claimed form
`(row * width + col) * 4 + k` (those all equal `2^34 + k`) — and changes
its value from 0 to 5, refuting "writes … at offset
`(row * buffer_width + column) * 4` … and modifies no other buffer
locations" as stated over unbounded offsets. -/
theorem render_rasterline_wrap_cex :
    (render_rasterline fragC ⟨4, 2 ^ 31, 4, fun _ => 0⟩
        ⟨2 ^ 30, 0, 1, 5, 0⟩).rect_float 0 = 5 ∧
    (∀ c k : ℕ, c < 1 → k < 4 →
      (0 : ℕ) ≠ ((2 ^ 30 : ℕ) * 4 + c) * 4 + k) ∧
    (0 : ℚ) ≠ 5 := by
  refine ⟨?_, ?_, by norm_num⟩
  · norm_num [render_rasterline, render_loop, write4, fragC]
  · intro c k hc hk
    omega

/-- C10 (amended): `render_rasterline` writes exactly the 4 consecutive
float channels at the `uint32_t`-computed offset
`((row * width + col) * 4) mod 2^32` for each column in
`[start_col, end_col)` and leaves every other index of the float store
unchanged; the written block holds that column's fragment output for the
linearly advanced payload provided no later column of the run wraps onto
the same offset; and the behaviour is identical whatever the destination
buffer's configured channel count is (the literal 4 in the offset does
not come from `buf.channels`).  When `(row * width + col) * 4 + 3 <
2^32` the offset is the plain `(row * width + col) * 4` of the original
claim. -/
theorem render_rasterline_writes (frag : ℚ → Float4) (buf : ImBuf)
    (rl : Rasterline) :
    (∀ i : ℕ,
      (∀ c k, rl.start_x ≤ c → c < rl.end_x → k < 4 →
        i ≠ ((rl.y * buf.x + c) * 4) % 2 ^ 32 + k) →
      (render_rasterline frag buf rl).rect_float i = buf.rect_float i) ∧
    (∀ c k, rl.start_x ≤ c → c < rl.end_x → k < 4 →
      (∀ c', c < c' → c' < rl.end_x →
        ((rl.y * buf.x + c') * 4) % 2 ^ 32 ≠
          ((rl.y * buf.x + c) * 4) % 2 ^ 32) →
      (render_rasterline frag buf rl).rect_float
          (((rl.y * buf.x + c) * 4) % 2 ^ 32 + k) =
        f4get (frag (rl.start_data +
          ((c - rl.start_x : ℕ) : ℚ) * rl.delta_step)) k) ∧
    (∀ ch : ℕ,
      (render_rasterline frag { buf with channels := ch } rl).rect_float =
        (render_rasterline frag buf rl).rect_float) := by
  refine ⟨?_, ?_, ?_⟩
  · intro i h
    exact render_loop_untouched frag buf.x rl.y rl.delta_step _ _ _ _ i
      (fun c k hc1 hc2 hk => h c k hc1 (by omega) hk)
  · intro c k hc1 hc2 hk hcol
    exact render_loop_written frag buf.x rl.y rl.delta_step _ _ _ _ c k hc1
      (by omega) hk (fun c' hc'1 hc'2 => hcol c' hc'1 (by omega))
  · intro ch
    rfl

/-- Witness for `render_rasterline_writes`: the value written at row 0,
column 2, channel 0 of an 8-wide buffer (offsets far below the wrap). -/
theorem render_rasterline_writes_witness :
    (render_rasterline fragC ⟨8, 8, 4, fun _ => 0⟩
        ⟨0, 2, 4, 5, 1⟩).rect_float (((0 * 8 + 2) * 4) % 2 ^ 32 + 0) =
      f4get (fragC (5 + ((2 - 2 : ℕ) : ℚ) * 1)) 0 :=
  (render_rasterline_writes fragC ⟨8, 8, 4, fun _ => 0⟩ ⟨0, 2, 4, 5, 1⟩).2.1
    2 0 (le_refl 2) (by norm_num) (by norm_num)
    (fun c' h1 h2 => by
      norm_num at h1 h2 ⊢
      omega)

/-! ### C5: bounds of the rasterlines produced by the engine -/

/-- C5 (counterexample): drawing the thin triangle `(2,0) (11/5,0) (2,2)`
into the fresh 8×8 state appends the rasterline
`{row 0, start_col 2, end_col 2}`: a rasterline the engine creates and
appends whose `start_col < end_col` fails (the run is empty,
`start_col = end_col = 2`), refuting the claimed strict inequality. -/
theorem rasterline_bounds_cex :
    (draw_triangle idShader fragC 4096 ⟨2, 0, 0⟩ ⟨11/5, 0, 0⟩ ⟨2, 2, 0⟩
        rstate0).lines = [⟨0, 2, 2, 0, 0⟩] ∧
    ¬ ((2 : ℕ) < 2) := by
  constructor
  · norm_num [draw_triangle, rasterize_triangle, order_triangle_vertices,
      calc_vertex_output_data, vo_add, vo_sub, vo_div, vo_mul,
      scanLoop, scanStep, appendLine, flush, clamped_rasterline,
      distance_to_column_anchor, distance_to_scanline_anchor,
      phase1Rows, phase2Rows, intRange, toU32, stats0, rstate0, fragC, idShader,
      scanline_for_zero, scanline_for_two, column_for_two, column_for_21_10,
      abs_lt, List.range_succ, List.range_zero, Int.toNat_ofNat]
    decide
  · norm_num

/-- Evaluation of `clamped_rasterline` on the non-discard path. -/
lemma clamped_rasterline_pos (width : ℕ) (stats : Stats) (y : ℤ)
    (sx ex sd ed : ℚ)
    (h1 : ¬ sx ≥ ex) (h2 : ¬ ex < 0) (h3 : ¬ sx ≥ (width : ℚ)) :
    (clamped_rasterline width stats y sx ex sd ed).1 =
      some ⟨toU32 y,
        toU32 (if column_for sx < 0 then 0 else column_for sx),
        (if toU32 (column_for ex) > width then width
          else toU32 (column_for ex)),
        sd + ((ed - sd) / (ex - sx)) *
          (if column_for sx < 0 then
            distance_to_column_anchor sx + (-(column_for sx) : ℤ)
          else distance_to_column_anchor sx),
        (ed - sd) / (ex - sx)⟩ := by
  simp only [clamped_rasterline]
  rw [if_neg h1, if_neg h2, if_neg h3]

/-- C5 (amended): every rasterline `clamped_rasterline` produces — under
the call-site guard `0 ≤ row < buffer_height` established by both
scanline loops, and int-range side conditions on the machine integers —
satisfies `0 ≤ row < buffer_height` and
`0 ≤ start_col ≤ end_col ≤ buffer_width`; the strict `start_col < end_col`
of the original claim does not hold (the run may be empty). -/
theorem clamped_rasterline_bounds (width height : ℕ) (stats : Stats)
    (y : ℤ) (sx ex sd ed : ℚ) (rl : Rasterline)
    (hy0 : 0 ≤ y) (hyh : y < (height : ℤ))
    (hw : (width : ℤ) < 2 ^ 31) (hex : ex ≤ ((2 ^ 31 : ℕ) : ℚ))
    (h : (clamped_rasterline width stats y sx ex sd ed).1 = some rl) :
    rl.y < height ∧ rl.start_x ≤ rl.end_x ∧ rl.end_x ≤ width := by
  by_cases h1 : sx ≥ ex
  · simp [clamped_rasterline, h1] at h
  by_cases h2 : ex < 0
  · simp [clamped_rasterline, h1, h2] at h
  by_cases h3 : sx ≥ (width : ℚ)
  · simp [clamped_rasterline, h1, h2, h3] at h
  rw [clamped_rasterline_pos width stats y sx ex sd ed h1 h2 h3,
    Option.some_inj] at h
  push_neg at h1 h2 h3
  have hmono : column_for sx ≤ column_for ex := column_for_mono h1.le
  have hcw : column_for sx ≤ (width : ℤ) := by
    have hc := column_for_mono h3.le
    rwa [column_for_natCast] at hc
  have hce0 : 0 ≤ column_for ex := by
    have hc := column_for_mono h2
    rwa [column_for_zero] at hc
  have hceB : column_for ex ≤ 2 ^ 31 := by
    have hc := column_for_mono hex
    rw [column_for_natCast] at hc
    exact_mod_cast hc
  subst h
  refine ⟨?_, ?_, ?_⟩ <;> simp only [toU32] <;> try split_ifs
  all_goals omega

/-- Witness for `clamped_rasterline_bounds`: the run `[1/2, 5)` on row 0
of an 8-wide, 8-high buffer. -/
theorem clamped_rasterline_bounds_witness :
    (clamped_rasterline 8 stats0 0 (1/2) 5 0 0).1 = some ⟨0, 0, 5, 0, 0⟩ ∧
    ((0 : ℕ) < 8 ∧ (0 : ℕ) ≤ 5 ∧ (5 : ℕ) ≤ 8) := by
  have h : (clamped_rasterline 8 stats0 0 (1/2) 5 0 0).1 =
      some ⟨0, 0, 5, 0, 0⟩ := by
    norm_num [clamped_rasterline, column_for_half, column_for_five,
      distance_to_column_anchor, toU32]
    decide
  exact ⟨h, clamped_rasterline_bounds 8 8 stats0 0 (1/2) 5 0 0 ⟨0, 0, 5, 0, 0⟩
    (le_refl 0) (by norm_num) (by norm_num) (by norm_num) h⟩

end BlenderRaster
